import Mathlib

/-!
Shallow embedding of `src/simple_async_scan.py` (Simple-Async-Port-Scanner).

The source is a small asynchronous TCP connect scanner:

* `AsyncTCPScanner.__init__` stores the target/port iterables and empty
  bookkeeping fields (lines 13-19);
* `register` appends an observer to a private list (lines 21-22);
* `__notify_all` calls `observer.update(...)` on each registered observer in
  list order with the five stored pieces of data (lines 24-30);
* `execute` records `start_time`, runs the scan, records `end_time`, then
  notifies (lines 32-36);
* `__scan_targets` builds one task per `(port, address)` pair — outer loop
  over ports, inner loop over targets — and collects them with
  `asyncio.gather` (lines 38-42);
* `__tcp_connection` attempts one connection under `asyncio.wait_for`
  with `timeout=3.0`, suppressing `ConnectionRefusedError`,
  `asyncio.TimeoutError` and `OSError`, mapping success to the string
  `open` and every suppressed failure to `closed` (lines 44-55);
* `parse_ports` (lines 82-93, `__main__` block) expands a comma separated
  string of ports and dash ranges into an integer sequence.

Network behaviour is modelled by an oracle assigning each `(address, port)`
pair a `ConnectOutcome`; Python iterables are modelled by `PyIterable`,
distinguishing re-iterable sequences from single-pass iterators;
`asyncio.gather` is modelled operationally by `gatherModel`, which takes the
completion order of the scheduled tasks as an explicit parameter and returns
the completed results slotted back into submission order (as the asyncio
documentation specifies: the order of result values corresponds to the order
of the awaitables).
-/

namespace SimpleAsyncScan

/-- Model of a Python iterable as passed to `AsyncTCPScanner.__init__`:
either a re-iterable sequence (e.g. a list — `iter()` yields a fresh
iterator each time), or a single-pass iterator (`iter()` returns the
iterator itself, which is exhausted after one traversal). -/
inductive PyIterable (α : Type) where
  | seq (l : List α)
  | oneShot (l : List α)
deriving DecidableEq

/-- One full `for ... in it` traversal of the iterable: returns the elements
produced and the state of the iterable afterwards.  A sequence is unchanged;
a single-pass iterator is exhausted. -/
def PyIterable.iterate {α : Type} : PyIterable α → List α × PyIterable α
  | .seq l => (l, .seq l)
  | .oneShot l => (l, .oneShot [])

/-- Exception classes relevant to the probe, from the `contextlib.suppress`
call on lines 48-49 of the source. -/
inductive PyError where
  | connectionRefused
  | timeoutError
  | osError
deriving DecidableEq

/-- The exception classes suppressed by the `with contextlib.suppress(...)`
block of `__tcp_connection` (source lines 48-49). -/
def suppressed : List PyError :=
  [.connectionRefused, .timeoutError, .osError]

/-- The fixed timeout passed to `asyncio.wait_for` on line 53 of the source
(`timeout=3.0`), in seconds. -/
def probeTimeout : ℚ := 3

/-- Oracle describing how the network treats one connection attempt:
either the TCP handshake would complete after `t` seconds, or the peer
refuses the connection, or some other OS/network-level error occurs. -/
inductive ConnectOutcome where
  | connects (t : ℚ)
  | refused
  | osError
deriving DecidableEq

/-- Semantics of `await asyncio.wait_for(asyncio.open_connection(...),
timeout=3.0)` (source lines 51-53) under the network oracle: a handshake
resolving within the timeout returns normally; a handshake that has not
resolved once the timeout elapses raises `asyncio.TimeoutError`; refusal
raises `ConnectionRefusedError`; any other OS error raises `OSError`. -/
def waitForConnect (beh : ConnectOutcome) : Except PyError Unit :=
  match beh with
  | .connects t => if t ≤ probeTimeout then .ok () else .error .timeoutError
  | .refused => .error .connectionRefused
  | .osError => .error .osError

/-- Embedding of `AsyncTCPScanner.__tcp_connection` (source lines 44-55):
`port_state` starts as `closed`, the bounded connection attempt runs, and on
normal return `port_state` becomes `open`; an exception belonging to the
`contextlib.suppress` list aborts the block body (leaving `closed`) and is
swallowed, any other exception would propagate (`Except.error`).  The
returned value is the `(ip_address, port, port_state)` triple of line 55. -/
def tcp_connection (ip_address : String) (port : ℕ) (beh : ConnectOutcome) :
    Except PyError (String × ℕ × String) :=
  match waitForConnect beh with
  | .ok _ => .ok (ip_address, port, "open")
  | .error e =>
      if e ∈ suppressed then .ok (ip_address, port, "closed") else .error e

/-- Network-level operations a probe could perform. -/
inductive NetEvent where
  | connect (ip : String) (port : ℕ)
  | send (ip : String) (port : ℕ)
  | recv (ip : String) (port : ℕ)
  | close (ip : String) (port : ℕ)
deriving DecidableEq

/-- The sequence of network operations `__tcp_connection` performs: the only
statement in its body touching the network is the `asyncio.open_connection`
handshake attempt of line 52.  No data is written or read on the streams
returned by `open_connection`, which are discarded unnamed (no retained
handle), so no `send`/`recv` event ever occurs. -/
def tcp_connection_events (ip_address : String) (port : ℕ) : List NetEvent :=
  [.connect ip_address port]

/-- A data-transfer operation (payload sent or read on a connection). -/
def isDataEvent : NetEvent → Bool
  | .send _ _ => true
  | .recv _ _ => true
  | _ => false

/-- Derived closed form of the port state `__tcp_connection` reports for a
given network behaviour (proved equal to the embedding in
`tcp_connection_eq_ok`). -/
def probeState (beh : ConnectOutcome) : String :=
  match beh with
  | .connects t => if t ≤ probeTimeout then "open" else "closed"
  | .refused => "closed"
  | .osError => "closed"

/-! ## Port-string parsing (`parse_ports`, source lines 82-93) -/

/-- Value of a decimal digit character, `none` for a non-digit. -/
def digitVal? (c : Char) : Option ℕ :=
  if c.isDigit then some (c.toNat - 48) else none

/-- Value of a non-empty all-digit character list read in base 10, `none`
otherwise. -/
def digitsVal? (cs : List Char) : Option ℕ :=
  match cs with
  | [] => none
  | _ => cs.foldl (fun acc c => acc.bind fun n => (digitVal? c).map
      fun d => 10 * n + d) (some 0)

/-- Model of Python `str.split(sep)` with a one-character separator: the
string is cut at every occurrence of the separator and empty pieces are
kept (`"".split(sep)` is `[""]`). -/
def splitOnChar (sep : Char) : List Char → List (List Char)
  | [] => [[]]
  | c :: rest =>
      let r := splitOnChar sep rest
      if c = sep then [] :: r
      else
        match r with
        | [] => [[c]]
        | t :: ts => (c :: t) :: ts

/-- Model of Python `int(s)` on the bare tokens this program produces by
splitting (an optional sign followed by decimal digits; the whitespace and
underscore tolerance of the builtin never arises for such tokens): the
parsed integer, or `none` where `int` raises `ValueError`. -/
def pyInt? (s : List Char) : Option ℤ :=
  match s with
  | '-' :: rest => (digitsVal? rest).map fun n => -(n : ℤ)
  | '+' :: rest => (digitsVal? rest).map fun n => (n : ℤ)
  | cs => (digitsVal? cs).map fun n => (n : ℤ)

/-- Model of Python `range(start, stop)` over integers, as a list. -/
def pyRange (start stop : ℤ) : List ℤ :=
  (List.range (stop - start).toNat).map fun (i : ℕ) => start + (i : ℤ)

/-- One token of the loop body of `parse_ports` (source lines 88-93):
`int(port)` is tried first and yielded on success; on `ValueError` the token
is split on the dash, both parts are parsed by `int`, and
`range(start, end + 1)` is yielded.  A token that fits neither form (or a
dash split without exactly two parts, which makes the tuple unpacking on
line 92 raise) makes the uncaught error propagate: `none`. -/
def parseToken (port : List Char) : Option (List ℤ) :=
  match pyInt? port with
  | some n => some [n]
  | none =>
      match (splitOnChar '-' port).mapM pyInt? with
      | some [start, stop] => some (pyRange start (stop + 1))
      | _ => none

/-- Embedding of `parse_ports` (source lines 82-93): split the string on
commas and concatenate, in left-to-right order, the integers each token
yields. -/
def parse_ports (ports : String) : Option (List ℤ) :=
  ((splitOnChar ',' ports.data).mapM parseToken).map List.flatten

/-! ## Operational model of `asyncio.gather` (source line 42)

`asyncio.gather(*scans)` awaits all the scheduled tasks; the scheduler may
complete them in any order, but per the asyncio documentation the list
returned by `gather` follows the order the awaitables were passed in.  The
model makes the completion order an explicit parameter `σ` (a list of
submission indices in the order the scheduler finishes them): each completed
task deposits its result in the slot of its submission index, and `gather`
reads the slots back in submission-index order. -/

/-- Results deposited by the tasks, tagged with their submission index, in
completion order `σ`.  Indices outside the task list produce nothing. -/
def completedOf {α : Type} (tasks : List α) (σ : List ℕ) : List (ℕ × α) :=
  σ.filterMap fun i => tasks[i]?.map fun v => (i, v)

/-- Model of `asyncio.gather`: read the deposited results back in
submission-index order. -/
def gatherModel {α : Type} (tasks : List α) (σ : List ℕ) : List α :=
  (List.range tasks.length).filterMap fun i =>
    ((completedOf tasks σ).find? fun c => c.1 == i).map fun c => c.2

/-- A completion order is valid for `n` tasks when every submission index
below `n` eventually completes (which `asyncio.gather` guarantees by
awaiting all of its awaitables). -/
def covers (σ : List ℕ) (n : ℕ) : Prop :=
  ∀ i < n, i ∈ σ

instance (σ : List ℕ) (n : ℕ) : Decidable (covers σ n) :=
  Nat.decidableBallLT n fun i _ => i ∈ σ

/-- Propagation behaviour of the barrier: the raw task results (each an
`Except`) are collected into a single `Except`, the first raised exception
aborting the aggregate — with this scanner no task ever raises, so the
aggregate is always `ok`. -/
def collectResults {ε α : Type} : List (Except ε α) → Except ε (List α)
  | [] => .ok []
  | .ok a :: rest => (collectResults rest).map fun as => a :: as
  | .error e :: _ => .error e

/-! ## The scanner class (source lines 12-55) -/

/-- The five arguments `__notify_all` passes to every observer's `update`
(source lines 26-30): the stored target iterable, port iterable, scan
results, start time and end time, exactly as held by the engine. -/
structure ObsArgs where
  target_addresses : PyIterable String
  ports : PyIterable ℕ
  scan_results : Option (List (String × ℕ × String))
  start_time : Option ℚ
  end_time : Option ℚ
deriving DecidableEq

/-- A registered observer: an identifying tag (for the notification trace)
and its `update` behaviour, which performs a side effect and either returns
normally or raises (`Except.error`). -/
structure Observer where
  oid : ℕ
  update : ObsArgs → Except String Unit

/-- State of an `AsyncTCPScanner` instance.  `__init__` (source lines
13-19) stores the two iterables unconsumed, sets `start_time`, `end_time`
and `scan_results` to `None`, and starts with an empty observer list. -/
structure AsyncTCPScanner where
  target_addresses : PyIterable String
  ports : PyIterable ℕ
  start_time : Option ℚ
  end_time : Option ℚ
  scan_results : Option (List (String × ℕ × String))
  observers : List Observer

/-- Embedding of `AsyncTCPScanner.__init__` (source lines 13-19). -/
def AsyncTCPScanner.init (target_addresses : PyIterable String)
    (ports : PyIterable ℕ) : AsyncTCPScanner :=
  { target_addresses := target_addresses
    ports := ports
    start_time := none
    end_time := none
    scan_results := none
    observers := [] }

/-- Embedding of `AsyncTCPScanner.register` (source lines 21-22):
`list.append` adds the observer at the end, unconditionally. -/
def AsyncTCPScanner.register (s : AsyncTCPScanner) (o : Observer) :
    AsyncTCPScanner :=
  { s with observers := s.observers ++ [o] }

/-- Embedding of `AsyncTCPScanner.__notify_all` (source lines 24-30): call
`update` on each observer in list order with the same arguments.  Returns
the trace of calls actually made — each as `(oid, arguments received)` —
and the first exception raised by an observer, if any; an exception aborts
the loop, so observers after the raising one are never called. -/
def notify_all (obs : List Observer) (a : ObsArgs) :
    List (ℕ × ObsArgs) × Option String :=
  match obs with
  | [] => ([], none)
  | o :: rest =>
      match o.update a with
      | .ok _ =>
          let r := notify_all rest a
          ((o.oid, a) :: r.1, r.2)
      | .error e => ([(o.oid, a)], some e)

/-- The `(address, port)` pairs produced by the task generator expression of
`__scan_targets` (source lines 40-41): outer loop over the ports already
drawn from the port iterable, inner loop iterating the target iterable anew
for each port (threading the iterator state, which is what makes a
single-pass target iterator pair only with the first port). -/
def genPairs (targets : PyIterable String) :
    List ℕ → List (String × ℕ) × PyIterable String
  | [] => ([], targets)
  | p :: rest =>
      let it := targets.iterate
      let r := genPairs it.2 rest
      (it.1.map (fun a => (a, p)) ++ r.1, r.2)

/-- Embedding of `AsyncTCPScanner.__scan_targets` (source lines 38-42):
draw the ports, build one `__tcp_connection` task per `(port, address)`
pair, and gather them under the completion order `σ`.  Returns the
aggregate result together with the final states of the two iterables. -/
def scan_targets (net : String → ℕ → ConnectOutcome) (σ : List ℕ)
    (targets : PyIterable String) (ports : PyIterable ℕ) :
    Except PyError (List (String × ℕ × String)) ×
      PyIterable String × PyIterable ℕ :=
  let pit := ports.iterate
  let gp := genPairs targets pit.1
  let scans := gp.1.map fun ap => tcp_connection ap.1 ap.2 (net ap.1 ap.2)
  (collectResults (gatherModel scans σ), gp.2, pit.2)

/-- Embedding of `AsyncTCPScanner.execute` (source lines 32-36): store the
start time, run the scan (consuming the iterables), store its results and
the end time, then notify all observers.  Returns the new engine state, the
notification trace, and the exception propagating out of `execute`, if any
(`Sum.inl`: a scan-level exception, raised before `scan_results` and
`end_time` are assigned and before any notification; `Sum.inr`: an
exception raised by an observer during notification, after all fields are
stored). -/
def execute (s : AsyncTCPScanner) (net : String → ℕ → ConnectOutcome)
    (σ : List ℕ) (t1 t2 : ℚ) :
    AsyncTCPScanner × List (ℕ × ObsArgs) × Option (PyError ⊕ String) :=
  let s1 := { s with start_time := some t1 }
  let sc := scan_targets net σ s1.target_addresses s1.ports
  match sc.1 with
  | .error e =>
      ({ s1 with target_addresses := sc.2.1, ports := sc.2.2 }, [],
        some (Sum.inl e))
  | .ok results =>
      let s2 := { s1 with
        target_addresses := sc.2.1
        ports := sc.2.2
        scan_results := some results
        end_time := some t2 }
      let args : ObsArgs :=
        { target_addresses := s2.target_addresses
          ports := s2.ports
          scan_results := s2.scan_results
          start_time := s2.start_time
          end_time := s2.end_time }
      let nt := notify_all s2.observers args
      (s2, nt.1, nt.2.map Sum.inr)

/-- The `(target, port)` pair of a probe outcome triple. -/
def outcomePair (r : String × ℕ × String) : String × ℕ :=
  (r.1, r.2.1)

/-! ## Basic lemmas about the probe -/

/-- The probe never lets an exception escape: it always returns the triple
`(ip, port, probeState beh)`. -/
lemma tcp_connection_eq_ok (ip_address : String) (port : ℕ)
    (beh : ConnectOutcome) :
    tcp_connection ip_address port beh =
      .ok (ip_address, port, probeState beh) := by
  cases beh with
  | connects t =>
      by_cases h : t ≤ probeTimeout <;>
        simp [tcp_connection, waitForConnect, probeState, suppressed, h]
  | refused => simp [tcp_connection, waitForConnect, probeState, suppressed]
  | osError => simp [tcp_connection, waitForConnect, probeState, suppressed]

/-! ## Lemmas about the gather model -/

lemma find_completedOf {α : Type} (l : List α) (σ : List ℕ) (i : ℕ) (v : α)
    (hget : l[i]? = some v) (hmem : i ∈ σ) :
    ((completedOf l σ).find? fun c => c.1 == i) = some (i, v) := by
  induction σ with
  | nil => cases hmem
  | cons j rest ih =>
      by_cases hij : j = i
      · subst hij
        have hstep : completedOf l (j :: rest) =
            (j, v) :: completedOf l rest := by
          simp only [completedOf, List.filterMap_cons, hget, Option.map_some']
        rw [hstep, List.find?_cons_of_pos _ (by simp)]
      · have hmem' : i ∈ rest :=
          List.mem_of_ne_of_mem (fun h => hij h.symm) hmem
        cases hjw : l[j]? with
        | none =>
            have hstep : completedOf l (j :: rest) = completedOf l rest := by
              simp only [completedOf, List.filterMap_cons, hjw,
                Option.map_none']
            rw [hstep]
            exact ih hmem'
        | some w =>
            have hstep : completedOf l (j :: rest) =
                (j, w) :: completedOf l rest := by
              simp only [completedOf, List.filterMap_cons, hjw,
                Option.map_some']
            rw [hstep, List.find?_cons_of_neg _ (by simp [hij])]
            exact ih hmem'

/-- Under a valid completion order, `gather` returns exactly the task
results in submission order — whatever order the scheduler completed the
tasks in. -/
lemma gather_covers {α : Type} (l : List α) (σ : List ℕ)
    (h : covers σ l.length) : gatherModel l σ = l := by
  have key : ∀ n, n ≤ l.length →
      ((List.range n).filterMap fun i =>
        ((completedOf l σ).find? fun c => c.1 == i).map fun c => c.2) =
      l.take n := by
    intro n
    induction n with
    | zero => simp
    | succ k ih =>
        intro hk
        have hk' : k < l.length := hk
        obtain ⟨v, hv⟩ : ∃ v, l[k]? = some v :=
          ⟨l[k], List.getElem?_eq_getElem hk'⟩
        rw [List.range_succ, List.filterMap_append, ih (le_of_lt hk'),
          List.take_succ, hv]
        simp [find_completedOf l σ k v hv (h k hk')]
  have hlen := key l.length le_rfl
  rw [gatherModel, hlen, List.take_length]

/-- Every value `gather` returns came from one of the tasks. -/
lemma mem_of_mem_gatherModel {α : Type} {l : List α} {σ : List ℕ} {x : α}
    (hx : x ∈ gatherModel l σ) : x ∈ l := by
  rw [gatherModel] at hx
  obtain ⟨i, _, hfind⟩ := List.mem_filterMap.mp hx
  obtain ⟨c, hc, hcx⟩ := Option.map_eq_some'.mp hfind
  have hmem : c ∈ completedOf l σ := List.mem_of_find?_eq_some hc
  obtain ⟨j, _, hj⟩ := List.mem_filterMap.mp hmem
  obtain ⟨w, hw, hjw⟩ := Option.map_eq_some'.mp hj
  subst hcx
  cases hjw
  exact List.getElem?_mem hw

/-! ## Lemmas about the barrier -/

lemma collectResults_map_ok {ε α β : Type} (l : List α) (f : α → β) :
    collectResults (ε := ε) (l.map fun x => .ok (f x)) = .ok (l.map f) := by
  induction l with
  | nil => simp [collectResults]
  | cons a rest ih => simp [collectResults, ih, Except.map]

lemma collectResults_ok_of_all_ok {ε α : Type} (l : List (Except ε α))
    (h : ∀ x ∈ l, ∃ a, x = .ok a) :
    ∃ as, collectResults l = .ok as := by
  induction l with
  | nil => exact ⟨[], rfl⟩
  | cons x rest ih =>
      obtain ⟨a, ha⟩ := h x (List.mem_cons_self x rest)
      obtain ⟨as, has⟩ := ih fun y hy => h y (List.mem_cons_of_mem x hy)
      subst ha
      exact ⟨a :: as, by simp [collectResults, has, Except.map]⟩

/-! ## Lemmas about pair generation and the scan -/

lemma genPairs_seq (ts : List String) (ps : List ℕ) :
    genPairs (.seq ts) ps =
      (ps.bind fun p => ts.map fun a => (a, p), .seq ts) := by
  induction ps with
  | nil => simp [genPairs]
  | cons p rest ih => simp [genPairs, PyIterable.iterate, ih]

lemma length_bind_pairs (ts : List String) (ps : List ℕ) :
    (ps.bind fun p => ts.map fun a => (a, p)).length =
      ts.length * ps.length := by
  induction ps with
  | nil => simp
  | cons p rest ih => simp [ih, Nat.mul_succ, Nat.add_comm]

lemma count_map_pair (ts : List String) (p q : ℕ) (a : String) :
    ((ts.map fun x => (x, p)).count (a, q)) =
      if q = p then ts.count a else 0 := by
  induction ts with
  | nil => simp
  | cons b rest ih =>
      by_cases hq : q = p
      · subst hq
        by_cases hb : b = a <;>
          simp [List.count_cons, ih, hb, Prod.ext_iff]
      · simp [List.count_cons, ih, hq, Prod.ext_iff]

lemma count_bind_pairs (ts : List String) (ps : List ℕ) (a : String)
    (q : ℕ) :
    ((ps.bind fun p => ts.map fun x => (x, p)).count (a, q)) =
      ts.count a * ps.count q := by
  induction ps with
  | nil => simp
  | cons p rest ih =>
      by_cases hq : q = p
      · subst hq
        simp [List.count_append, List.count_cons, ih, count_map_pair,
          Nat.mul_succ, Nat.add_comm]
      · simp [List.count_append, List.count_cons, ih, count_map_pair, hq,
          Ne.symm hq]

/-! ## Unfolding the scan and `execute` -/

/-- With re-iterable sequences for both inputs and a valid completion order,
the scan succeeds and returns one outcome per `(port, target)` pair, in
submission order, leaving the iterables re-iterable. -/
lemma scan_targets_seq (net : String → ℕ → ConnectOutcome) (σ : List ℕ)
    (ts : List String) (ps : List ℕ)
    (hσ : covers σ (ts.length * ps.length)) :
    scan_targets net σ (.seq ts) (.seq ps) =
      (.ok ((ps.bind fun p => ts.map fun a => (a, p)).map
          fun ap => (ap.1, ap.2, probeState (net ap.1 ap.2))),
        .seq ts, .seq ps) := by
  have hmap : ((ps.bind fun p => ts.map fun a => (a, p)).map
        fun ap => tcp_connection ap.1 ap.2 (net ap.1 ap.2)) =
      (ps.bind fun p => ts.map fun a => (a, p)).map
        fun ap => .ok (ap.1, ap.2, probeState (net ap.1 ap.2)) :=
    List.map_congr_left fun ap _ => tcp_connection_eq_ok ap.1 ap.2 _
  simp only [scan_targets, PyIterable.iterate, genPairs_seq]
  rw [hmap, gather_covers _ σ
      (by rw [List.length_map, length_bind_pairs]; exact hσ),
    collectResults_map_ok]

/-- The aggregate of the raw task results is always `ok`: no probe ever
raises, so the barrier never propagates an exception. -/
lemma scan_targets_ok (net : String → ℕ → ConnectOutcome) (σ : List ℕ)
    (targets : PyIterable String) (ports : PyIterable ℕ) :
    ∃ rs, (scan_targets net σ targets ports).1 = .ok rs := by
  apply collectResults_ok_of_all_ok
  intro x hx
  have hx' := mem_of_mem_gatherModel hx
  obtain ⟨ap, _, hap⟩ := List.mem_map.mp hx'
  exact ⟨_, by rw [← hap, tcp_connection_eq_ok]⟩

/-- Unfolding of `execute` once the scan result is known: the engine state
is fully updated (start time, end time, scan results, iterable states)
before the observers are notified, and the notification trace and the
escaping observer exception are those of `__notify_all` on the stored
data. -/
lemma execute_eq_of_scan (s : AsyncTCPScanner)
    (net : String → ℕ → ConnectOutcome) (σ : List ℕ) (t1 t2 : ℚ)
    (rs : List (String × ℕ × String)) (tg : PyIterable String)
    (pt : PyIterable ℕ)
    (h : scan_targets net σ s.target_addresses s.ports = (.ok rs, tg, pt)) :
    execute s net σ t1 t2 =
      ({ s with
          target_addresses := tg
          ports := pt
          start_time := some t1
          end_time := some t2
          scan_results := some rs },
        (notify_all s.observers
          ⟨tg, pt, some rs, some t1, some t2⟩).1,
        (notify_all s.observers
          ⟨tg, pt, some rs, some t1, some t2⟩).2.map Sum.inr) := by
  simp only [execute, h]

/-- Every run of `execute` stores the two timestamps and some scan result
list, then runs `__notify_all` on exactly the stored five pieces of data;
the exception escaping `execute`, if any, is the first observer-raised
one. -/
lemma execute_run (s : AsyncTCPScanner) (net : String → ℕ → ConnectOutcome)
    (σ : List ℕ) (t1 t2 : ℚ) :
    ∃ rs tg pt,
      scan_targets net σ s.target_addresses s.ports = (.ok rs, tg, pt) ∧
      execute s net σ t1 t2 =
        ({ s with
            target_addresses := tg
            ports := pt
            start_time := some t1
            end_time := some t2
            scan_results := some rs },
          (notify_all s.observers
            ⟨tg, pt, some rs, some t1, some t2⟩).1,
          (notify_all s.observers
            ⟨tg, pt, some rs, some t1, some t2⟩).2.map Sum.inr) := by
  obtain ⟨rs, hrs⟩ := scan_targets_ok net σ s.target_addresses s.ports
  refine ⟨rs, (scan_targets net σ s.target_addresses s.ports).2.1,
    (scan_targets net σ s.target_addresses s.ports).2.2, ?_, ?_⟩
  · rw [← hrs]
  · exact execute_eq_of_scan s net σ t1 t2 rs _ _ (by rw [← hrs])

/-! ## Lemmas about notification -/

/-- When no observer raises, every registered observer entry is called
exactly once, in registration order, with the same arguments, and no
exception escapes. -/
lemma notify_all_ok (obs : List Observer) (a : ObsArgs)
    (h : ∀ o ∈ obs, o.update a = .ok ()) :
    notify_all obs a = (obs.map fun o => (o.oid, a), none) := by
  induction obs with
  | nil => rfl
  | cons o rest ih =>
      have ho := h o (List.mem_cons_self o rest)
      have hr := ih fun o' ho' => h o' (List.mem_cons_of_mem o ho')
      simp [notify_all, ho, hr]

/-- When one observer raises, notification stops with it: the observers
before it (and itself) are called with the shared arguments, the ones after
it are never called, and its exception is reported. -/
lemma notify_all_split (pre : List Observer) (bad : Observer)
    (post : List Observer) (a : ObsArgs) (e : String)
    (hpre : ∀ o ∈ pre, o.update a = .ok ())
    (hbad : bad.update a = .error e) :
    notify_all (pre ++ bad :: post) a =
      ((pre ++ [bad]).map fun o => (o.oid, a), some e) := by
  induction pre with
  | nil => simp [notify_all, hbad]
  | cons o rest ih =>
      have ho := hpre o (List.mem_cons_self o rest)
      have hr := ih fun o' ho' => hpre o' (List.mem_cons_of_mem o ho')
      simp [notify_all, ho, hr]

/-! ## Further scan unfoldings for iterator inputs -/

lemma genPairs_oneShot_nil (ps : List ℕ) :
    genPairs (.oneShot ([] : List String)) ps = ([], .oneShot []) := by
  induction ps with
  | nil => rfl
  | cons p rest ih => simp [genPairs, PyIterable.iterate, ih]

/-- With a single-pass target iterator and at least one port, the inner
loop exhausts the iterator while handling the first port: every target is
paired with the first port and later ports contribute no task. -/
lemma scan_targets_oneShot_targets (net : String → ℕ → ConnectOutcome)
    (σ : List ℕ) (ts : List String) (p : ℕ) (psr : List ℕ)
    (hσ : covers σ ts.length) :
    scan_targets net σ (.oneShot ts) (.seq (p :: psr)) =
      (.ok (ts.map fun a => (a, p, probeState (net a p))),
        .oneShot [], .seq (p :: psr)) := by
  have hmap : ((ts.map fun a => (a, p)).map
        fun ap => tcp_connection ap.1 ap.2 (net ap.1 ap.2)) =
      ts.map fun a => .ok (a, p, probeState (net a p)) := by
    rw [List.map_map]
    exact List.map_congr_left fun a _ => tcp_connection_eq_ok a p _
  simp only [scan_targets, PyIterable.iterate, genPairs,
    genPairs_oneShot_nil, List.append_nil]
  rw [hmap]
  have hmap2 : (ts.map fun a => Except.ok (α := String × ℕ × String)
        (ε := PyError) (a, p, probeState (net a p))) =
      ts.map fun a => .ok ((fun a => (a, p, probeState (net a p))) a) := rfl
  rw [hmap2, gather_covers _ σ (by rw [List.length_map]; exact hσ),
    collectResults_map_ok]

/-- A scan over an exhausted port iterator builds no tasks and returns the
empty result list. -/
lemma scan_targets_exhausted (net : String → ℕ → ConnectOutcome)
    (σ : List ℕ) (targets : PyIterable String) :
    scan_targets net σ targets (.oneShot []) =
      (.ok [], targets, .oneShot []) := by
  simp [scan_targets, PyIterable.iterate, genPairs, gatherModel,
    collectResults]

/-- Scanning from a single-pass port iterator always leaves it exhausted. -/
lemma scan_targets_ports_oneShot (net : String → ℕ → ConnectOutcome)
    (σ : List ℕ) (targets : PyIterable String) (ps : List ℕ) :
    (scan_targets net σ targets (.oneShot ps)).2.2 = .oneShot [] := rfl

/-! ## Predicates used in the claims -/

/-- A network behaviour on which the connection attempt fails: refusal, an
OS/network-level error, or a handshake that does not resolve within the
3-second timeout. -/
def probeFails : ConnectOutcome → Prop
  | .connects t => probeTimeout < t
  | .refused => True
  | .osError => True

instance (beh : ConnectOutcome) : Decidable (probeFails beh) :=
  match beh with
  | .connects t => inferInstanceAs (Decidable (probeTimeout < t))
  | .refused => inferInstanceAs (Decidable True)
  | .osError => inferInstanceAs (Decidable True)

/-- An observer whose `update` performs its side effect and returns
normally. -/
def okObserver (n : ℕ) : Observer :=
  { oid := n, update := fun _ => .ok () }

/-- An observer whose `update` raises. -/
def raisingObserver (n : ℕ) (e : String) : Observer :=
  { oid := n, update := fun _ => .error e }

/-! ## The claims -/

/-- C2: if the connection attempt fails — connection refused, timeout, or
any other OS/network-level error — the probe returns the outcome
`(address, port, closed)`, and no exception of any kind escapes the probe
(on every behaviour whatsoever its result is an `ok` triple): every failure
mode collapses to the `closed` outcome. -/
theorem C2_probe_failure_collapses_to_closed (ip_address : String)
    (port : ℕ) (beh : ConnectOutcome) (hfail : probeFails beh) :
    tcp_connection ip_address port beh = .ok (ip_address, port, "closed") ∧
    ∀ beh' : ConnectOutcome,
      ∃ r, tcp_connection ip_address port beh' = .ok r := by
  constructor
  · rw [tcp_connection_eq_ok]
    cases beh with
    | connects t =>
        have ht : ¬t ≤ probeTimeout := not_le.mpr hfail
        simp [probeState, ht]
    | refused => rfl
    | osError => rfl
  · intro beh'
    exact ⟨_, tcp_connection_eq_ok ip_address port beh'⟩

theorem C2_witness :
    tcp_connection "203.0.113.5" 8080 .refused =
      .ok ("203.0.113.5", 8080, "closed") ∧
    ∀ beh' : ConnectOutcome,
      ∃ r, tcp_connection "203.0.113.5" 8080 beh' = .ok r :=
  C2_probe_failure_collapses_to_closed "203.0.113.5" 8080 .refused
    (by decide)

/-- C3: the connection attempt is bounded by a fixed timeout of exactly
3.0 seconds, and an attempt that does not resolve within those 3.0
seconds reports the `closed` outcome instead of hanging. -/
theorem C3_fixed_three_second_timeout (ip_address : String) (port : ℕ)
    (t : ℚ) (hslow : probeTimeout < t) :
    probeTimeout = 3 ∧
    tcp_connection ip_address port (.connects t) =
      .ok (ip_address, port, "closed") := by
  refine ⟨rfl, ?_⟩
  rw [tcp_connection_eq_ok]
  simp [probeState, not_le.mpr hslow]

theorem C3_witness :
    probeTimeout = 3 ∧
    tcp_connection "198.51.100.7" 22 (.connects 4) =
      .ok ("198.51.100.7", 22, "closed") :=
  C3_fixed_three_second_timeout "198.51.100.7" 22 4 (by norm_num [probeTimeout])

/-- C4: a probe whose TCP handshake completes within the timeout reports
the `open` outcome; the probe sends and reads no data on the connection —
its only network operation is the handshake attempt itself — and retains no
connection handle (its result is just the outcome triple, the streams
returned by `open_connection` being discarded unnamed, i.e. released). -/
theorem C4_success_reports_open_no_data (ip_address : String) (port : ℕ)
    (t : ℚ) (hfast : t ≤ probeTimeout) :
    tcp_connection ip_address port (.connects t) =
      .ok (ip_address, port, "open") ∧
    (tcp_connection_events ip_address port).filter isDataEvent = [] ∧
    tcp_connection_events ip_address port = [.connect ip_address port] := by
  refine ⟨?_, rfl, rfl⟩
  rw [tcp_connection_eq_ok]
  simp [probeState, hfast]

theorem C4_witness :
    tcp_connection "192.0.2.9" 443 (.connects 1) =
      .ok ("192.0.2.9", 443, "open") ∧
    (tcp_connection_events "192.0.2.9" 443).filter isDataEvent = [] ∧
    tcp_connection_events "192.0.2.9" 443 = [.connect "192.0.2.9" 443] :=
  C4_success_reports_open_no_data "192.0.2.9" 443 1
    (by norm_num [probeTimeout])

/-- C8: the port-string parser expands comma-separated port numbers and
dash ranges in left-to-right order, ranges inclusive on both ends (an
expanded range holds exactly the integers between its two bounds); in
particular `20-25,53,80` yields exactly `20,21,22,23,24,25,53,80`. -/
theorem C8_parse_ports_expansion :
    parse_ports "20-25,53,80" = some [20, 21, 22, 23, 24, 25, 53, 80] ∧
    ∀ a b x : ℤ, x ∈ pyRange a (b + 1) ↔ a ≤ x ∧ x ≤ b := by
  constructor
  · decide
  · intro a b x
    unfold pyRange
    constructor
    · intro hx
      obtain ⟨i, hi, hix⟩ := List.mem_map.mp hx
      have := List.mem_range.mp hi
      omega
    · rintro ⟨h1, h2⟩
      refine List.mem_map.mpr ⟨(x - a).toNat, List.mem_range.mpr ?_, ?_⟩ <;>
        omega

/-- C1: for non-empty re-iterable target and port sequences, one `execute`
run stores exactly `|targets| * |ports|` outcomes, and every
`(target, port)` pair of the Cartesian product appears exactly once
(counting multiplicity for duplicated targets or ports) — no pair invented
or dropped — whatever the network oracle makes the individual probes do and
whatever order the scheduler completes the tasks in. -/
theorem C1_execute_cross_product (s : AsyncTCPScanner)
    (net : String → ℕ → ConnectOutcome) (σ : List ℕ) (t1 t2 : ℚ)
    (ts : List String) (ps : List ℕ)
    (hts : s.target_addresses = .seq ts) (hps : s.ports = .seq ps)
    (hne1 : ts ≠ []) (hne2 : ps ≠ [])
    (hσ : covers σ (ts.length * ps.length)) :
    ∃ rs, (execute s net σ t1 t2).1.scan_results = some rs ∧
      rs.length = ts.length * ps.length ∧
      ∀ a p, (rs.map outcomePair).count (a, p) =
        ts.count a * ps.count p := by
  have hex := execute_eq_of_scan s net σ t1 t2
    ((ps.bind fun p => ts.map fun a => (a, p)).map
      fun ap => (ap.1, ap.2, probeState (net ap.1 ap.2)))
    (.seq ts) (.seq ps)
    (by rw [hts, hps]; exact scan_targets_seq net σ ts ps hσ)
  refine ⟨_, by rw [hex], ?_, ?_⟩
  · rw [List.length_map, length_bind_pairs]
  · intro a p
    have hproj : ((ps.bind fun p => ts.map fun a => (a, p)).map
          (fun ap => (ap.1, ap.2, probeState (net ap.1 ap.2)))).map
            outcomePair =
        ps.bind fun p => ts.map fun a => (a, p) := by
      rw [List.map_map]
      have hid : (outcomePair ∘ fun ap : String × ℕ =>
          (ap.1, ap.2, probeState (net ap.1 ap.2))) = id := by
        funext ap
        rfl
      rw [hid, List.map_id]
    rw [hproj, count_bind_pairs]

theorem C1_witness :
    ∃ rs, (execute (AsyncTCPScanner.init (.seq ["a", "b"]) (.seq [1, 2]))
        (fun _ _ => .refused) [3, 0, 2, 1] 0 1).1.scan_results = some rs ∧
      rs.length = ["a", "b"].length * [1, 2].length ∧
      ∀ a p, (rs.map outcomePair).count (a, p) =
        ["a", "b"].count a * [1, 2].count p :=
  C1_execute_cross_product _ _ _ 0 1 ["a", "b"] [1, 2] rfl rfl
    (by decide) (by decide) (by decide)

/-- C5 (amended): the outcome sequence `execute` stores is deterministic
and follows the submission order of the probe tasks — outer loop over
ports, inner loop over targets — for every completion order of the
concurrent tasks, because `asyncio.gather` returns its results in the order
the awaitables were passed, not in completion order. -/
theorem C5_order_is_submission_order (s : AsyncTCPScanner)
    (net : String → ℕ → ConnectOutcome) (σ : List ℕ) (t1 t2 : ℚ)
    (ts : List String) (ps : List ℕ)
    (hts : s.target_addresses = .seq ts) (hps : s.ports = .seq ps)
    (hσ : covers σ (ts.length * ps.length)) :
    (execute s net σ t1 t2).1.scan_results =
      some ((ps.bind fun p => ts.map fun a => (a, p)).map
        fun ap => (ap.1, ap.2, probeState (net ap.1 ap.2))) := by
  have hex := execute_eq_of_scan s net σ t1 t2
    ((ps.bind fun p => ts.map fun a => (a, p)).map
      fun ap => (ap.1, ap.2, probeState (net ap.1 ap.2)))
    (.seq ts) (.seq ps)
    (by rw [hts, hps]; exact scan_targets_seq net σ ts ps hσ)
  rw [hex]

theorem C5_order_witness :
    (execute (AsyncTCPScanner.init (.seq ["a", "b"]) (.seq [1, 2]))
        (fun a p => if a = "a" ∧ p = 1 then .connects 1 else .refused)
        [3, 0, 2, 1] 0 1).1.scan_results =
      some (([1, 2].bind fun p => ["a", "b"].map fun a => (a, p)).map
        fun ap => (ap.1, ap.2, probeState
          ((fun a p => if a = "a" ∧ p = 1 then .connects 1 else .refused)
            ap.1 ap.2))) :=
  C5_order_is_submission_order _ _ [3, 0, 2, 1] 0 1 ["a", "b"] [1, 2]
    rfl rfl (by decide)

/-- Concrete four-probe scan used to settle the ordering claim: two
targets, two ports, one of the four probes succeeding. -/
def demoScanner : AsyncTCPScanner :=
  AsyncTCPScanner.init (.seq ["a", "b"]) (.seq [1, 2])

/-- Network oracle for the demo scan. -/
def demoNet : String → ℕ → ConnectOutcome :=
  fun a p => if a = "a" ∧ p = 1 then .connects 1 else .refused

/-- The demo outcomes in submission order: outer loop over the ports
`1, 2`, inner loop over the targets `a, b`. -/
def demoSubmissionOrder : List (String × ℕ × String) :=
  [("a", 1, "open"), ("b", 1, "closed"),
    ("a", 2, "closed"), ("b", 2, "closed")]

/-- All ways of inserting an element into a list. -/
def insertEverywhere {α : Type} (x : α) : List α → List (List α)
  | [] => [[x]]
  | y :: ys => (x :: y :: ys) :: (insertEverywhere x ys).map (y :: ·)

/-- All permutations of a list, by structural recursion. -/
def allPerms {α : Type} : List α → List (List α)
  | [] => [[]]
  | x :: xs => (allPerms xs).bind (insertEverywhere x)

/-- For every completion order of the four demo probe tasks (every
permutation of their submission indices), the outcome sequence `execute`
stores equals the submission-order sequence. -/
def demoOrderIndependent : Bool :=
  (allPerms [0, 1, 2, 3]).all fun σ =>
    decide ((execute demoScanner demoNet σ 0 1).1.scan_results =
      some demoSubmissionOrder)

/-- C5 counterexample: the claim says the stored order reflects completion
order and is not guaranteed to match submission order; in fact, at this
concrete input the stored sequence equals the submission-order sequence for
every one of the 24 completion orders of the four tasks, because the
`gather` barrier re-orders completed results back into submission order. -/
theorem C5_counterexample_completion_order : demoOrderIndependent = true :=
  by decide

/-- C6: `register` appends the observer to the internal list with no
deduplication (unconditionally, even when already present), and — provided
no observer raises — one `execute` run invokes each entry of the observer
list exactly once (a twice-registered observer twice), in registration
order, every invocation receiving the identical five arguments (targets,
ports, results, start time, end time) stored by that scan. -/
theorem C6_register_and_notify_in_order (s : AsyncTCPScanner)
    (o : Observer) (net : String → ℕ → ConnectOutcome) (σ : List ℕ)
    (t1 t2 : ℚ)
    (hok : ∀ ob ∈ s.observers, ∀ a, ob.update a = .ok ()) :
    (AsyncTCPScanner.register s o).observers = s.observers ++ [o] ∧
    ∃ args : ObsArgs,
      args.target_addresses = (execute s net σ t1 t2).1.target_addresses ∧
      args.ports = (execute s net σ t1 t2).1.ports ∧
      args.scan_results = (execute s net σ t1 t2).1.scan_results ∧
      args.start_time = some t1 ∧
      args.end_time = some t2 ∧
      (execute s net σ t1 t2).2.1 =
        s.observers.map (fun ob => (ob.oid, args)) ∧
      (execute s net σ t1 t2).2.2 = none := by
  obtain ⟨rs, tg, pt, hscan, hex⟩ := execute_run s net σ t1 t2
  refine ⟨rfl, ⟨tg, pt, some rs, some t1, some t2⟩,
    by rw [hex], by rw [hex], by rw [hex], rfl, rfl, ?_, ?_⟩
  · rw [hex, notify_all_ok s.observers _ fun ob hob => hok ob hob _]
  · rw [hex, notify_all_ok s.observers _ fun ob hob => hok ob hob _]
    rfl

theorem C6_witness :
    ((AsyncTCPScanner.register
        { AsyncTCPScanner.init (.seq ["a"]) (.seq [7]) with
          observers := [okObserver 5, okObserver 5] }
        (okObserver 5)).observers =
      [okObserver 5, okObserver 5] ++ [okObserver 5]) ∧
    ∃ args : ObsArgs,
      args.target_addresses =
        (execute { AsyncTCPScanner.init (.seq ["a"]) (.seq [7]) with
          observers := [okObserver 5, okObserver 5] }
          (fun _ _ => .refused) [0] 0 1).1.target_addresses ∧
      args.ports =
        (execute { AsyncTCPScanner.init (.seq ["a"]) (.seq [7]) with
          observers := [okObserver 5, okObserver 5] }
          (fun _ _ => .refused) [0] 0 1).1.ports ∧
      args.scan_results =
        (execute { AsyncTCPScanner.init (.seq ["a"]) (.seq [7]) with
          observers := [okObserver 5, okObserver 5] }
          (fun _ _ => .refused) [0] 0 1).1.scan_results ∧
      args.start_time = some 0 ∧
      args.end_time = some 1 ∧
      (execute { AsyncTCPScanner.init (.seq ["a"]) (.seq [7]) with
          observers := [okObserver 5, okObserver 5] }
          (fun _ _ => .refused) [0] 0 1).2.1 =
        [okObserver 5, okObserver 5].map (fun ob => (ob.oid, args)) ∧
      (execute { AsyncTCPScanner.init (.seq ["a"]) (.seq [7]) with
          observers := [okObserver 5, okObserver 5] }
          (fun _ _ => .refused) [0] 0 1).2.2 = none :=
  C6_register_and_notify_in_order
    { AsyncTCPScanner.init (.seq ["a"]) (.seq [7]) with
      observers := [okObserver 5, okObserver 5] }
    (okObserver 5) (fun _ _ => .refused) [0] 0 1
    (fun ob hob a => by
      rcases List.mem_cons.mp hob with h | h
      · rw [h]; rfl
      · rcases List.mem_cons.mp h with h2 | h2
        · rw [h2]; rfl
        · cases h2)

/-- C7: when an observer's `update` raises during notification, the engine
does not contain the exception — it propagates out of `execute` — the
observers after the raising one in registration order are never invoked,
and the scan results and timestamps stored before notification began are
exactly the ones a run without observers would store. -/
theorem C7_observer_exception_propagates (s : AsyncTCPScanner)
    (pre post : List Observer) (bad : Observer) (e : String)
    (net : String → ℕ → ConnectOutcome) (σ : List ℕ) (t1 t2 : ℚ)
    (hobs : s.observers = pre ++ bad :: post)
    (hpre : ∀ ob ∈ pre, ∀ a, ob.update a = .ok ())
    (hbad : ∀ a, bad.update a = .error e) :
    (execute s net σ t1 t2).2.2 = some (Sum.inr e) ∧
    (∃ args, (execute s net σ t1 t2).2.1 =
      (pre ++ [bad]).map fun ob => (ob.oid, args)) ∧
    (execute s net σ t1 t2).1.start_time = some t1 ∧
    (execute s net σ t1 t2).1.end_time = some t2 ∧
    (execute s net σ t1 t2).1.scan_results =
      (execute { s with observers := [] } net σ t1 t2).1.scan_results := by
  obtain ⟨rs, tg, pt, hscan, hex⟩ := execute_run s net σ t1 t2
  have hsplit := notify_all_split pre bad post
    ⟨tg, pt, some rs, some t1, some t2⟩ e
    (fun ob hob => hpre ob hob _) (hbad _)
  obtain ⟨rs2, tg2, pt2, hscan2, hex2⟩ :=
    execute_run { s with observers := [] } net σ t1 t2
  have hsame : rs2 = rs := by
    have h12 : (Except.ok (ε := PyError) rs, tg, pt) =
        (.ok rs2, tg2, pt2) := by rw [← hscan, ← hscan2]
    have := congrArg (fun x => x.1) h12
    simpa using this.symm
  refine ⟨?_, ⟨⟨tg, pt, some rs, some t1, some t2⟩, ?_⟩, by rw [hex],
    by rw [hex], ?_⟩
  · rw [hex, hobs, hsplit]
    rfl
  · rw [hex, hobs, hsplit]
  · rw [hex, hex2, hsame]

theorem C7_witness :
    (execute { AsyncTCPScanner.init (.seq ["a"]) (.seq [7]) with
        observers := [okObserver 1, raisingObserver 2 "boom", okObserver 3] }
        (fun _ _ => .refused) [0] 0 1).2.2 = some (Sum.inr "boom") ∧
    (∃ args, (execute { AsyncTCPScanner.init (.seq ["a"]) (.seq [7]) with
        observers := [okObserver 1, raisingObserver 2 "boom", okObserver 3] }
        (fun _ _ => .refused) [0] 0 1).2.1 =
      ([okObserver 1] ++ [raisingObserver 2 "boom"]).map
        fun ob => (ob.oid, args)) ∧
    (execute { AsyncTCPScanner.init (.seq ["a"]) (.seq [7]) with
        observers := [okObserver 1, raisingObserver 2 "boom", okObserver 3] }
        (fun _ _ => .refused) [0] 0 1).1.start_time = some 0 ∧
    (execute { AsyncTCPScanner.init (.seq ["a"]) (.seq [7]) with
        observers := [okObserver 1, raisingObserver 2 "boom", okObserver 3] }
        (fun _ _ => .refused) [0] 0 1).1.end_time = some 1 ∧
    (execute { AsyncTCPScanner.init (.seq ["a"]) (.seq [7]) with
        observers := [okObserver 1, raisingObserver 2 "boom", okObserver 3] }
        (fun _ _ => .refused) [0] 0 1).1.scan_results =
    (execute { { AsyncTCPScanner.init (.seq ["a"]) (.seq [7]) with
        observers := [okObserver 1, raisingObserver 2 "boom", okObserver 3] }
        with observers := [] }
        (fun _ _ => .refused) [0] 0 1).1.scan_results :=
  C7_observer_exception_propagates
    { AsyncTCPScanner.init (.seq ["a"]) (.seq [7]) with
      observers := [okObserver 1, raisingObserver 2 "boom", okObserver 3] }
    [okObserver 1] [okObserver 3] (raisingObserver 2 "boom") "boom"
    (fun _ _ => .refused) [0] 0 1 rfl
    (fun ob hob a => by
      rcases List.mem_cons.mp hob with h | h
      · rw [h]; rfl
      · cases h)
    (fun a => rfl)

/-- C9: the completeness guarantee needs re-iterable inputs.  A single-pass
target iterator is exhausted by the inner loop while the first port is
handled, so every target pairs only with the first port and later ports get
no tasks; a single-pass port iterator is exhausted by the first `execute`
call, so a second call stores an empty outcome sequence. -/
theorem C9_single_pass_iterators :
    (∀ (s : AsyncTCPScanner) (net : String → ℕ → ConnectOutcome)
        (σ : List ℕ) (t1 t2 : ℚ) (ts : List String) (p : ℕ) (psr : List ℕ),
      s.target_addresses = .oneShot ts → s.ports = .seq (p :: psr) →
      covers σ ts.length →
      (execute s net σ t1 t2).1.scan_results =
        some (ts.map fun a => (a, p, probeState (net a p)))) ∧
    (∀ (s : AsyncTCPScanner) (net : String → ℕ → ConnectOutcome)
        (σ σ2 : List ℕ) (t1 t2 t3 t4 : ℚ) (ps : List ℕ),
      s.ports = .oneShot ps →
      (execute (execute s net σ t1 t2).1 net σ2 t3 t4).1.scan_results =
        some []) := by
  constructor
  · intro s net σ t1 t2 ts p psr hts hps hσ
    have hex := execute_eq_of_scan s net σ t1 t2
      (ts.map fun a => (a, p, probeState (net a p))) (.oneShot [])
      (.seq (p :: psr))
      (by rw [hts, hps]; exact scan_targets_oneShot_targets net σ ts p psr hσ)
    rw [hex]
  · intro s net σ σ2 t1 t2 t3 t4 ps hps
    obtain ⟨rs, tg, pt, hscan, hex⟩ := execute_run s net σ t1 t2
    have hpt : pt = .oneShot [] := by
      rw [hps] at hscan
      have := congrArg (fun x => x.2.2) hscan
      simpa [scan_targets_ports_oneShot] using this.symm
    have hports1 : (execute s net σ t1 t2).1.ports = .oneShot [] := by
      rw [hex]
      exact hpt
    have hex2 := execute_eq_of_scan (execute s net σ t1 t2).1 net σ2 t3 t4
      [] ((execute s net σ t1 t2).1.target_addresses) (.oneShot [])
      (by rw [hports1]; exact scan_targets_exhausted net σ2 _)
    rw [hex2]

theorem C9_witness :
    ((execute (AsyncTCPScanner.init (.oneShot ["a", "b"]) (.seq [1, 2]))
        (fun _ _ => .refused) [0, 1] 0 1).1.scan_results =
      some (["a", "b"].map fun a =>
        (a, 1, probeState ((fun _ _ => ConnectOutcome.refused) a 1)))) ∧
    ((execute (execute (AsyncTCPScanner.init (.seq ["a"]) (.oneShot [1, 2]))
        (fun _ _ => .refused) [0, 1] 0 1).1
        (fun _ _ => .refused) [] 2 3).1.scan_results = some []) :=
  ⟨C9_single_pass_iterators.1
      (AsyncTCPScanner.init (.oneShot ["a", "b"]) (.seq [1, 2]))
      (fun _ _ => .refused) [0, 1] 0 1 ["a", "b"] 1 [2] rfl rfl (by decide),
    C9_single_pass_iterators.2
      (AsyncTCPScanner.init (.seq ["a"]) (.oneShot [1, 2]))
      (fun _ _ => .refused) [0, 1] [] 0 1 2 3 [1, 2] rfl⟩

/-- C10: with an empty target sequence or an empty port sequence,
`execute` still completes normally: it records the start and end
timestamps, stores the empty outcome sequence as the scan results, and
(when no observer raises) notifies every registered observer exactly once
with that empty result set. -/
theorem C10_empty_inputs_complete_normally (s : AsyncTCPScanner)
    (net : String → ℕ → ConnectOutcome) (σ : List ℕ) (t1 t2 : ℚ)
    (ts : List String) (ps : List ℕ)
    (hts : s.target_addresses = .seq ts) (hps : s.ports = .seq ps)
    (hempty : ts = [] ∨ ps = [])
    (hok : ∀ ob ∈ s.observers, ∀ a, ob.update a = .ok ()) :
    (execute s net σ t1 t2).1.start_time = some t1 ∧
    (execute s net σ t1 t2).1.end_time = some t2 ∧
    (execute s net σ t1 t2).1.scan_results = some [] ∧
    ∃ args : ObsArgs, args.scan_results = some [] ∧
      (execute s net σ t1 t2).2.1 =
        s.observers.map (fun ob => (ob.oid, args)) ∧
      (execute s net σ t1 t2).2.2 = none := by
  have hnil : (ps.bind fun p => ts.map fun a => (a, p)) = [] := by
    rcases hempty with h | h <;> subst h <;> simp
  have hcov : covers σ (ts.length * ps.length) := by
    intro i hi
    exfalso
    have hlb := length_bind_pairs ts ps
    rw [hnil] at hlb
    simp only [List.length_nil] at hlb
    omega
  have hex := execute_eq_of_scan s net σ t1 t2
    ((ps.bind fun p => ts.map fun a => (a, p)).map
      fun ap => (ap.1, ap.2, probeState (net ap.1 ap.2)))
    (.seq ts) (.seq ps)
    (by rw [hts, hps]; exact scan_targets_seq net σ ts ps hcov)
  rw [hnil] at hex
  simp only [List.map_nil] at hex
  refine ⟨by rw [hex], by rw [hex], by rw [hex],
    ⟨.seq ts, .seq ps, some [], some t1, some t2⟩, rfl, ?_, ?_⟩
  · rw [hex, notify_all_ok s.observers _ fun ob hob => hok ob hob _]
  · rw [hex, notify_all_ok s.observers _ fun ob hob => hok ob hob _]
    rfl

theorem C10_witness :
    (execute { AsyncTCPScanner.init (.seq ["a"]) (.seq []) with
        observers := [okObserver 4] }
        (fun _ _ => .refused) [] 2 5).1.start_time = some 2 ∧
    (execute { AsyncTCPScanner.init (.seq ["a"]) (.seq []) with
        observers := [okObserver 4] }
        (fun _ _ => .refused) [] 2 5).1.end_time = some 5 ∧
    (execute { AsyncTCPScanner.init (.seq ["a"]) (.seq []) with
        observers := [okObserver 4] }
        (fun _ _ => .refused) [] 2 5).1.scan_results = some [] ∧
    ∃ args : ObsArgs, args.scan_results = some [] ∧
      (execute { AsyncTCPScanner.init (.seq ["a"]) (.seq []) with
          observers := [okObserver 4] }
          (fun _ _ => .refused) [] 2 5).2.1 =
        [okObserver 4].map (fun ob => (ob.oid, args)) ∧
      (execute { AsyncTCPScanner.init (.seq ["a"]) (.seq []) with
          observers := [okObserver 4] }
          (fun _ _ => .refused) [] 2 5).2.2 = none :=
  C10_empty_inputs_complete_normally
    { AsyncTCPScanner.init (.seq ["a"]) (.seq []) with
      observers := [okObserver 4] }
    (fun _ _ => .refused) [] 2 5 ["a"] [] rfl rfl (Or.inr rfl)
    (fun ob hob a => by
      rcases List.mem_cons.mp hob with h | h
      · rw [h]; rfl
      · cases h)

end SimpleAsyncScan
